import Mathlib

/-!
Verification of `train.py`, the Flow++-on-CIFAR-10 training script.

The script's logic is shallowly embedded below: pure fragments become Lean
functions over `ℚ`/`ℝ`/`ℕ`, the file-system side effects of the evaluation
pass become an explicit effect list, and the resume branch of `main` becomes
a function into `Except` (Python's `assert` failure is the `error` case).
-/

namespace FlowPP

/-! ## Learning-rate warmup (train.py lines 89-90, 122, 128)

`warm_up = args.warm_up * args.batch_size` and the scheduler multiplier is
`lambda s: min(1., s / warm_up)`, stepped with `global_step`, which advances
by the batch size after every optimizer step. -/

/-- The `LambdaLR` multiplier `lambda s: min(1., s / warm_up)` (line 90). -/
def lr_lambda (warm_up s : ℚ) : ℚ := min 1 (s / warm_up)

/-- The effective warmup length `warm_up = args.warm_up * args.batch_size`
(line 89). -/
def effective_warm_up (warm_up_arg batch_size : ℕ) : ℕ := warm_up_arg * batch_size

/-- `global_step` after `b` full batches of size `batch_size`: it starts at 0
and advances by `x.size(0)` per batch (line 128). -/
def global_step_after (batch_size b : ℕ) : ℕ := b * batch_size

/-- The learning-rate multiplier in effect after `b` optimizer steps
(line 122 passes `global_step` to the scheduler). -/
def warmup_multiplier (warm_up_arg batch_size b : ℕ) : ℚ :=
  lr_lambda (effective_warm_up warm_up_arg batch_size) (global_step_after batch_size b)

/-! ## Best-loss tracking (train.py lines 179-180, 237) -/

/-- Initialization `best_loss = 0` (line 237). -/
def best_loss_init : ℚ := 0

/-- The update `if loss_meter.avg < best_loss: best_loss = loss_meter.avg`
(lines 179-180). -/
def update_best_loss (avg best : ℚ) : ℚ := if avg < best then avg else best

/-! ## Resume logic (train.py lines 73-84) -/

/-- A saved checkpoint record: `{'net': ..., 'test_loss': ..., 'epoch': ...}`
(lines 183-187), with the network state abstract. -/
structure Checkpoint (Net : Type) where
  net : Net
  test_loss : ℚ
  epoch : ℕ

/-- The mutable state `main` establishes before the epoch loop. -/
structure ResumeState (Net : Type) where
  net_loaded : Option Net
  best_loss : ℚ
  start_epoch : ℕ
  global_step : ℕ

/-- The fixed path resuming reads from: `torch.load('save/best.pth.tar')`
(line 78). -/
def resume_path : String := "save/best.pth.tar"

/-- Embeds train.py lines 73-84. `read` stands for `torch.load` on a path;
the failing `assert os.path.isdir('save')` is the `Except.error` case, raised
before any checkpoint is read. Without `--resume`, `best_loss` and
`global_step` keep their module-level initial values (lines 237-238) and
`start_epoch = 0` (line 73). -/
def main_resume {Net : Type} (resume save_isdir : Bool)
    (read : String → Checkpoint Net) (trainset_len : ℕ) :
    Except String (ResumeState Net) :=
  if resume then
    if save_isdir then
      let ck := read resume_path
      Except.ok ⟨some ck.net, ck.test_loss, ck.epoch, ck.epoch * trainset_len⟩
    else
      Except.error "Error: no checkpoint directory found!"
  else
    Except.ok ⟨none, best_loss_init, 0, 0⟩

/-! ## Gradient clipping (train.py lines 119-121) -/

/-- Modelled from the spec: `util.clip_grad_norm` lives in the `util` module,
which is not among the sources here. Per the spec, clipping with threshold `T`
"never leaves the global gradient norm above T after clipping"; its effect on
the global gradient norm is to cap it at the threshold. -/
def clip_grad_norm (max_norm grad_norm : ℚ) : ℚ := min grad_norm max_norm

/-- Embeds `if max_grad_norm > 0: util.clip_grad_norm(optimizer, max_grad_norm)`
(lines 119-120): the global gradient norm the optimizer step sees. -/
def train_step_grad_norm (max_grad_norm grad_norm : ℚ) : ℚ :=
  if max_grad_norm > 0 then clip_grad_norm max_grad_norm grad_norm else grad_norm

/-! ## Checkpoint persistence (train.py lines 176-202)

After every evaluation pass, `test` unconditionally builds the state record
`{'net': ..., 'test_loss': loss_meter.avg, 'epoch': epoch}` and writes it to
`'ckpts/flow++_' + str(epoch) + 'vae(n_d_n_l_64).pth.tar'`, then writes the
reconstruction grid and the sample grid. The file-system effects are made
explicit as a list; the script never calls any deletion primitive. -/

/-- The per-epoch checkpoint filename (line 189). -/
def ckpt_path (epoch : ℕ) : String :=
  "ckpts/flow++_" ++ Nat.repr epoch ++ "vae(n_d_n_l_64).pth.tar"

/-- File-system operations the script can perform (`os.makedirs`,
`torch.save`, `torchvision.utils.save_image`, and — available in Python's
`os` module but never called here — file deletion). -/
inductive FsEffect (Net : Type) where
  | makedirs (path : String) : FsEffect Net
  | save (path : String) (state : Checkpoint Net) : FsEffect Net
  | save_image (path : String) : FsEffect Net
  | delete (path : String) : FsEffect Net

/-- The file-system effects of the tail of `test` (lines 182-202), in program
order. -/
def test_save_effects {Net : Type} (epoch : ℕ) (net_state : Net) (avg : ℚ)
    (save_dir : String) : List (FsEffect Net) :=
  [ FsEffect.makedirs "ckpts",
    FsEffect.save (ckpt_path epoch) ⟨net_state, avg, epoch⟩,
    FsEffect.makedirs "samples",
    FsEffect.save_image ("samples/reconstruction_epoch_" ++ Nat.repr epoch ++ ".png"),
    FsEffect.makedirs save_dir,
    FsEffect.save_image (save_dir ++ "/epoch_" ++ Nat.repr epoch ++ ".png") ]

/-- The whole post-evaluation block of `test` (lines 176-202): the best-loss
update followed by the saves. The effect list does not depend on the
comparison's outcome. -/
def test_epilogue {Net : Type} (epoch : ℕ) (net_state : Net) (avg best : ℚ)
    (save_dir : String) : ℚ × List (FsEffect Net) :=
  (update_best_loss avg best, test_save_effects epoch net_state avg save_dir)

/-! ### Injectivity of decimal `Nat.repr`

Distinctness of the per-epoch checkpoint filenames reduces to injectivity of
`Nat.repr`, proved here by parsing the decimal digits back. -/

/-- Numeric value of a decimal digit character. -/
def digitVal (c : Char) : ℕ := c.toNat - 48

/-- Parse a most-significant-first decimal digit list on top of accumulator
`a`. -/
def parseDigitsAux (a : ℕ) : List Char → ℕ
  | [] => a
  | c :: cs => parseDigitsAux (a * 10 + digitVal c) cs

theorem parseDigitsAux_append (xs ys : List Char) :
    ∀ a, parseDigitsAux a (xs ++ ys) = parseDigitsAux (parseDigitsAux a xs) ys := by
  induction xs with
  | nil => intro a; rfl
  | cons c cs ih =>
    intro a
    show parseDigitsAux (a * 10 + digitVal c) (cs ++ ys) =
      parseDigitsAux (parseDigitsAux (a * 10 + digitVal c) cs) ys
    exact ih _

theorem toDigitsCore_append (b : ℕ) :
    ∀ (fuel n : ℕ) (ds : List Char),
      Nat.toDigitsCore b fuel n ds = Nat.toDigitsCore b fuel n [] ++ ds := by
  intro fuel
  induction fuel with
  | zero => intro n ds; rfl
  | succ f ih =>
    intro n ds
    simp only [Nat.toDigitsCore]
    by_cases h : n / b = 0
    · rw [if_pos h, if_pos h]
      rfl
    · rw [if_neg h, if_neg h, ih (n / b) (Nat.digitChar (n % b) :: ds),
        ih (n / b) [Nat.digitChar (n % b)], List.append_assoc, List.singleton_append]

theorem toDigitsCore_fuel_eq (n : ℕ) :
    ∀ f₁ f₂ : ℕ, n < f₁ → n < f₂ →
      Nat.toDigitsCore 10 f₁ n [] = Nat.toDigitsCore 10 f₂ n [] := by
  induction n using Nat.strong_induction_on with
  | _ n ih =>
    intro f₁ f₂ h₁ h₂
    obtain ⟨g₁, rfl⟩ : ∃ g, f₁ = g + 1 := ⟨f₁ - 1, by omega⟩
    obtain ⟨g₂, rfl⟩ : ∃ g, f₂ = g + 1 := ⟨f₂ - 1, by omega⟩
    simp only [Nat.toDigitsCore]
    by_cases h : n / 10 = 0
    · rw [if_pos h, if_pos h]
    · rw [if_neg h, if_neg h,
        toDigitsCore_append 10 g₁ (n / 10) [Nat.digitChar (n % 10)],
        toDigitsCore_append 10 g₂ (n / 10) [Nat.digitChar (n % 10)]]
      have hn0 : 0 < n := by
        rcases Nat.eq_zero_or_pos n with h0 | h0
        · exact absurd (by rw [h0]) h
        · exact h0
      have hlt : n / 10 < n := Nat.div_lt_self hn0 (by norm_num)
      rw [ih (n / 10) hlt g₁ g₂ (lt_of_lt_of_le hlt (by omega))
        (lt_of_lt_of_le hlt (by omega))]

theorem digitVal_digitChar : ∀ k, k < 10 → digitVal (Nat.digitChar k) = k := by
  intro k hk
  interval_cases k <;> rfl

theorem parseDigitsAux_toDigits (n : ℕ) :
    ∀ a, parseDigitsAux a (Nat.toDigits 10 n) =
      a * 10 ^ (Nat.toDigits 10 n).length + n := by
  induction n using Nat.strong_induction_on with
  | _ n ih =>
    intro a
    rw [Nat.toDigits]
    simp only [Nat.toDigitsCore]
    by_cases h : n / 10 = 0
    · rw [if_pos h]
      have hlt : n < 10 := by omega
      have hmod : n % 10 = n := Nat.mod_eq_of_lt hlt
      have hp : parseDigitsAux a [Nat.digitChar (n % 10)] =
          a * 10 + digitVal (Nat.digitChar (n % 10)) := rfl
      rw [hp, hmod, digitVal_digitChar n hlt, List.length_singleton, pow_one]
    · rw [if_neg h, toDigitsCore_append 10 n (n / 10) [Nat.digitChar (n % 10)]]
      have hn0 : 0 < n := by
        rcases Nat.eq_zero_or_pos n with h0 | h0
        · exact absurd (by rw [h0]) h
        · exact h0
      have hlt : n / 10 < n := Nat.div_lt_self hn0 (by norm_num)
      rw [toDigitsCore_fuel_eq (n / 10) n (n / 10 + 1) hlt (Nat.lt_succ_self _),
        show Nat.toDigitsCore 10 (n / 10 + 1) (n / 10) [] = Nat.toDigits 10 (n / 10) from rfl,
        parseDigitsAux_append]
      rw [ih (n / 10) hlt a]
      have hp : parseDigitsAux (a * 10 ^ (Nat.toDigits 10 (n / 10)).length + n / 10)
            [Nat.digitChar (n % 10)] =
          (a * 10 ^ (Nat.toDigits 10 (n / 10)).length + n / 10) * 10 +
            digitVal (Nat.digitChar (n % 10)) := rfl
      rw [hp, digitVal_digitChar (n % 10) (Nat.mod_lt n (by norm_num)),
        List.length_append, List.length_singleton, pow_succ, ← mul_assoc]
      generalize a * 10 ^ (Nat.toDigits 10 (n / 10)).length = A
      omega

/-- Decimal string representations of distinct naturals are distinct. -/
theorem nat_repr_injective : Function.Injective Nat.repr := by
  intro m n h
  have hd : Nat.toDigits 10 m = Nat.toDigits 10 n := congrArg String.data h
  have hm := parseDigitsAux_toDigits m 0
  have hn := parseDigitsAux_toDigits n 0
  rw [hd] at hm
  rw [hm] at hn
  simpa using hn

/-- The per-epoch checkpoint path is never the resume source path: their
lengths already differ. -/
theorem ckpt_path_ne_resume_path (epoch : ℕ) : ckpt_path epoch ≠ resume_path := by
  intro h
  have hl := congrArg String.length h
  have h13 : ("ckpts/flow++_" : String).length = 13 := by decide
  have h24 : ("vae(n_d_n_l_64).pth.tar" : String).length = 23 := by decide
  have h17 : resume_path.length = 17 := by decide
  rw [ckpt_path, String.length_append, String.length_append, h13, h24, h17] at hl
  omega

/-! ## Sampling and reconstruction outputs (train.py lines 147-149, 173-174)

Both outputs apply `torch.sigmoid` elementwise to the flow's inverse-transform
output. The flow network is an external component, so its inverse output is an
arbitrary real-valued image ("for any model state"); `torch.sigmoid` computes
`1 / (1 + exp(-x))`. -/

/-- Elementwise `torch.sigmoid`. -/
noncomputable def sigmoid (x : ℝ) : ℝ := 1 / (1 + Real.exp (-x))

/-- `x, _ = net(z, reverse=True); x = torch.sigmoid(x)` (lines 147-148):
the unconditional-sample output, elementwise over pixel positions `ι`. -/
noncomputable def sample_output {ι : Type} (flow_inverse : ι → ℝ) : ι → ℝ :=
  fun i => sigmoid (flow_inverse i)

/-- `x_, _ = net(x, reverse=True); reconstruction_images = torch.sigmoid(x_)`
(lines 173-174): the reconstruction output, elementwise. -/
noncomputable def reconstruction_images {ι : Type} (flow_inverse : ι → ℝ) : ι → ℝ :=
  fun i => sigmoid (flow_inverse i)

/-! ## Boolean option parsing (train.py lines 208-209)

`def str2bool(s): return s.lower().startswith('t')`. Strings are modelled as
lists of characters; `str.lower` is modelled characterwise by `Char.toLower`
(ASCII lowercasing, which agrees with Python on the ASCII strings option
parsing deals in). -/

/-- Embeds `str2bool`: lowercase the string, then test for the one-character
starting sequence `'t'`. -/
def str2bool (s : List Char) : Bool :=
  List.isPrefixOf ['t'] (s.map Char.toLower)

/-! ## Theorems -/

/-- C1: with positive warmup argument `W` (number of batches) and batch size
`B`, the multiplier after `b` optimizer steps equals `b / W` while `b ≤ W`
(the linear ramp from 0 at `b = 0` to 1 at `b = W`) and equals 1 for every
step thereafter. -/
theorem warmup_multiplier_linear_then_one (W B b : ℕ) (hW : 0 < W) (hB : 0 < B) :
    (b ≤ W → warmup_multiplier W B b = (b : ℚ) / W) ∧
    (W ≤ b → warmup_multiplier W B b = 1) := by
  have hWQ : (0 : ℚ) < (W : ℚ) := by exact_mod_cast hW
  have hBQ : (0 : ℚ) < (B : ℚ) := by exact_mod_cast hB
  have key : warmup_multiplier W B b = min 1 ((b : ℚ) / W) := by
    unfold warmup_multiplier lr_lambda effective_warm_up global_step_after
    push_cast
    rw [mul_comm (W : ℚ) (B : ℚ), div_mul_eq_div_div, mul_div_assoc,
      div_self (ne_of_gt hBQ), mul_one]
  constructor
  · intro hb
    rw [key, min_eq_right]
    rw [div_le_one hWQ]
    exact_mod_cast hb
  · intro hb
    rw [key, min_eq_left]
    rw [le_div_iff₀ hWQ, one_mul]
    exact_mod_cast hb

/-- C1 witness: at the default `--warm_up 200` with batch size 4, step 100 of
the ramp gives multiplier 100/200 and step 300 gives multiplier 1. -/
theorem warmup_multiplier_witness :
    warmup_multiplier 200 4 100 = (100 : ℚ) / 200 ∧ warmup_multiplier 200 4 300 = 1 := by
  constructor
  · have h := (warmup_multiplier_linear_then_one 200 4 100 (by norm_num) (by norm_num)).1
      (by norm_num)
    rw [h]; norm_num
  · exact (warmup_multiplier_linear_then_one 200 4 300 (by norm_num) (by norm_num)).2
      (by norm_num)

/-- C2: the stored best loss changes exactly when the epoch's average
evaluation loss is strictly below the current best; the initial best is the
module-level default 0, so on the first evaluation the value changes exactly
when the average loss is negative. -/
theorem update_best_loss_iff (avg best : ℚ) :
    (update_best_loss avg best ≠ best ↔ avg < best) ∧
    best_loss_init = 0 ∧
    (update_best_loss avg best_loss_init ≠ best_loss_init ↔ avg < 0) := by
  refine ⟨?_, rfl, ?_⟩
  · unfold update_best_loss
    by_cases h : avg < best
    · simp [h, ne_of_lt h]
    · simp [h]
  · unfold update_best_loss best_loss_init
    by_cases h : avg < 0
    · simp [h, ne_of_lt h]
    · simp [h]

/-- C3: resuming (resume flag set, checkpoint directory present) yields a
state whose global step counter is the stored epoch index times the
training-set size, with the epoch loop re-entered at that stored index. -/
theorem main_resume_global_step {Net : Type} (read : String → Checkpoint Net)
    (trainset_len : ℕ) :
    ∃ st : ResumeState Net,
      main_resume true true read trainset_len = Except.ok st ∧
      st.global_step = (read resume_path).epoch * trainset_len ∧
      st.start_epoch = (read resume_path).epoch := by
  exact ⟨_, rfl, rfl, rfl⟩

/-- C5: when the clipping threshold is positive the gradient norm entering the
optimizer step never exceeds it; when the threshold is nonpositive the
clipping call is skipped and the norm passes through unmodified. -/
theorem train_step_grad_norm_spec (T g : ℚ) :
    (0 < T → train_step_grad_norm T g ≤ T) ∧
    (T ≤ 0 → train_step_grad_norm T g = g) := by
  constructor
  · intro hT
    unfold train_step_grad_norm clip_grad_norm
    rw [if_pos hT]
    exact min_le_right g T
  · intro hT
    unfold train_step_grad_norm
    rw [if_neg (not_lt.mpr hT)]

/-- C5 witness: at threshold 1 a gradient norm of 5 is capped to at most 1,
and at threshold 0 a gradient norm of 5 passes through unchanged. -/
theorem train_step_grad_norm_witness :
    train_step_grad_norm 1 5 ≤ 1 ∧ train_step_grad_norm 0 5 = 5 :=
  ⟨(train_step_grad_norm_spec 1 5).1 (by norm_num),
   (train_step_grad_norm_spec 0 5).2 (by norm_num)⟩

/-- The sigmoid squashing function always lands in the closed unit interval. -/
theorem sigmoid_bounds (x : ℝ) : 0 ≤ sigmoid x ∧ sigmoid x ≤ 1 := by
  have hexp := Real.exp_pos (-x)
  have hd : 0 < 1 + Real.exp (-x) := by linarith
  constructor
  · exact le_of_lt (div_pos one_pos hd)
  · rw [sigmoid, div_le_one hd]
    linarith

/-- C6: every element of the unconditional-sample output and of the
reconstruction output lies in `[0, 1]`, whatever the flow's inverse transform
produced. -/
theorem outputs_in_unit_interval {ι : Type} (flow_inverse : ι → ℝ) (i : ι) :
    sample_output flow_inverse i ∈ Set.Icc (0 : ℝ) 1 ∧
    reconstruction_images flow_inverse i ∈ Set.Icc (0 : ℝ) 1 := by
  have h := sigmoid_bounds (flow_inverse i)
  exact ⟨⟨h.1, h.2⟩, ⟨h.1, h.2⟩⟩

/-- On any character, ASCII lowercasing yields `'t'` exactly for `'t'` and
`'T'`. -/
theorem toLower_eq_t_iff (c : Char) : Char.toLower c = 't' ↔ c = 't' ∨ c = 'T' := by
  constructor
  · intro h
    simp only [Char.toLower] at h
    split at h
    · next hr =>
      obtain ⟨h1, h2⟩ := hr
      have hc : Char.ofNat c.toNat = c := Char.ofNat_toNat c
      obtain ⟨n, hn⟩ : ∃ n, c.toNat = n := ⟨_, rfl⟩
      rw [hn] at h h1 h2 hc
      interval_cases n <;> first
        | exact absurd h (by decide)
        | (right; rw [← hc])
    · next hr => exact Or.inl h
  · rintro (rfl | rfl) <;> decide

/-- C10: `str2bool` returns true exactly when the string starts with `'t'` or
`'T'`; strings like "yes" and "1" yield false (no error is raised). -/
theorem str2bool_iff_starts_t_or_T :
    (∀ s : List Char, str2bool s = true ↔ (['t'] <+: s ∨ ['T'] <+: s)) ∧
    str2bool "yes".data = false ∧ str2bool "1".data = false ∧
    str2bool "True".data = true ∧ str2bool "false".data = false := by
  refine ⟨?_, by decide, by decide, by decide, by decide⟩
  intro s
  cases s with
  | nil => simp [str2bool]
  | cons c cs =>
    have hl : str2bool (c :: cs) = true ↔ Char.toLower c = 't' := by
      unfold str2bool
      rw [List.isPrefixOf_iff_prefix, List.map_cons]
      constructor
      · rintro ⟨t, ht⟩
        rw [List.singleton_append] at ht
        injection ht with h1 h2
        exact h1.symm
      · intro h
        exact ⟨_, by rw [List.singleton_append, h]⟩
    have hp : ∀ x : Char, [x] <+: (c :: cs) ↔ c = x := by
      intro x
      constructor
      · rintro ⟨t, ht⟩
        rw [List.singleton_append] at ht
        injection ht with h1 h2
        exact h1.symm
      · rintro rfl
        exact ⟨cs, rfl⟩
    rw [hl, toLower_eq_t_iff, hp, hp]

/-- C7: when the resume flag is set and the checkpoint directory is absent,
`main` fails the assertion with its diagnostic message and never reaches the
checkpoint load: no `ok` state is produced. -/
theorem main_resume_missing_dir {Net : Type} (read : String → Checkpoint Net)
    (trainset_len : ℕ) :
    main_resume true false read trainset_len =
      Except.error "Error: no checkpoint directory found!" ∧
    ∀ st : ResumeState Net, main_resume true false read trainset_len ≠ Except.ok st := by
  refine ⟨rfl, ?_⟩
  intro st h
  exact Except.noConfusion h

/-- C4: after every evaluation pass, whatever the best-loss comparison
decided, the effect list of `test` contains the save of a checkpoint holding
the network state, the epoch's average evaluation loss and the epoch index, at
the per-epoch filename; the script performs no deletion; and filenames of
distinct epochs are distinct, so no later epoch overwrites an earlier
checkpoint. -/
theorem checkpoint_persisted_unconditionally {Net : Type} (epoch : ℕ)
    (net_state : Net) (avg best : ℚ) (save_dir : String) :
    FsEffect.save (ckpt_path epoch) ⟨net_state, avg, epoch⟩ ∈
      (test_epilogue epoch net_state avg best save_dir).2 ∧
    (∀ p, FsEffect.delete p ∉ (test_epilogue epoch net_state avg best save_dir).2) ∧
    (∀ e₁ e₂ : ℕ, ckpt_path e₁ = ckpt_path e₂ → e₁ = e₂) := by
  refine ⟨?_, ?_, ?_⟩
  · simp [test_epilogue, test_save_effects]
  · intro p
    simp [test_epilogue, test_save_effects]
  · intro e₁ e₂ h
    have hd := congrArg String.data h
    simp only [ckpt_path, String.data_append] at hd
    have h1 := List.append_cancel_right hd
    have h2 := List.append_cancel_left h1
    exact nat_repr_injective (String.ext h2)

/-- C4 witness: at epoch 3 with average loss 1 and best loss 0, the checkpoint
save at the epoch-3 filename is among the effects. -/
theorem checkpoint_persisted_unconditionally_witness :
    FsEffect.save (ckpt_path 3) (⟨(), 1, 3⟩ : Checkpoint Unit) ∈
      (test_epilogue 3 () 1 0 "samples").2 :=
  (checkpoint_persisted_unconditionally 3 () 1 0 "samples").1

/-- C9: any checkpoint the evaluation loop saves goes to the per-epoch
`ckpts/...` filename, which is never the fixed `save/best.pth.tar` path that
resuming reads. -/
theorem saved_checkpoint_is_not_resume_source {Net : Type} (epoch : ℕ)
    (net_state : Net) (avg best : ℚ) (save_dir p : String) (ck : Checkpoint Net)
    (hmem : FsEffect.save p ck ∈ (test_epilogue epoch net_state avg best save_dir).2) :
    p ≠ resume_path := by
  have hp : p = ckpt_path epoch := by
    simp only [test_epilogue, test_save_effects, List.mem_cons, List.not_mem_nil,
      or_false] at hmem
    rcases hmem with h | h | h | h | h | h <;>
      first
        | exact (FsEffect.noConfusion h (fun h1 h2 => h1))
        | exact FsEffect.noConfusion h
  rw [hp]
  exact ckpt_path_ne_resume_path epoch

/-- C9 witness: the epoch-0 checkpoint save that `test` performs does not
target the resume path. -/
theorem saved_checkpoint_is_not_resume_source_witness :
    ckpt_path 0 ≠ resume_path :=
  saved_checkpoint_is_not_resume_source 0 () 1 0 "samples" (ckpt_path 0)
    (⟨(), 1, 0⟩ : Checkpoint Unit) (by simp [test_epilogue, test_save_effects])

end FlowPP
